import Mathlib

/-
Verification of the tusker ephemeral-database lifecycle manager
(src/tusker/__init__.py) against its natural-language specification.

The embedding models the statement-level behaviour of `DatabaseAdmin.createdb`,
`cmd_diff` and `cmd_clean`.  Database-server statements may fail; failures are
injected through an explicit oracle of booleans, one per failable statement,
and the model follows Python try/finally and contextmanager semantics for
error propagation (an exception raised inside a `finally` block replaces the
in-flight exception and aborts the rest of that `finally` block).
-/

namespace Tusker

/-- The marker comment constant, line 18 of src/tusker/__init__.py. -/
def TUSKER_COMMENT : String := "CREATED BY TUSKER - If this table is left behind tusker probably crashed and was not able to clean up after itself. Either try running `tusker clean` or remove this database manually."

/-- Which ephemeral database a step belongs to: the suffix passed to
`createdb` in `cmd_diff` is either "schema" or "migrations". -/
inductive Sfx
  | schema
  | migrations
deriving DecidableEq, Repr

/-- Errors that a run of `cmd_diff` can raise, one per failable statement of
the pipeline.  `badPrint` is a TypeError raised by a `print` call with an
invalid keyword argument. -/
inductive Err
  | connect
  | create (x : Sfx)
  | comment (x : Sfx)
  | engine (x : Sfx)
  | applySchema
  | applyMigr
  | diff
  | dispose (x : Sfx)
  | terminate (x : Sfx)
  | drop (x : Sfx)
  | badPrint
deriving DecidableEq, Repr

/-- Successfully executed pipeline statements, recorded in execution order. -/
inductive Ev
  | createEv (x : Sfx)
  | commentEv (x : Sfx)
  | applySchemaEv
  | applyMigrEv
  | diffInvokeEv
  | terminateEv (x : Sfx)
  | dropEv (x : Sfx)
deriving DecidableEq, Repr

/-- Failure oracle for the statements touching one ephemeral database. -/
structure SideOracle where
  createFails : Bool
  commentFails : Bool
  engineFails : Bool
  disposeFails : Bool
  terminateFails : Bool
  dropFails : Bool
deriving DecidableEq, Repr

/-- Failure oracle for one run of `cmd_diff`. -/
structure Oracle where
  connectFails : Bool
  schema : SideOracle
  migrations : SideOracle
  applySchemaFails : Bool
  applyMigrFails : Bool
  diffFails : Bool
deriving DecidableEq, Repr

/-- The all-statements-succeed oracle for one database. -/
def okSide : SideOracle := ⟨false, false, false, false, false, false⟩

/-- The all-statements-succeed oracle for a run. -/
def okOracle : Oracle := ⟨false, okSide, okSide, false, false, false⟩

/-- The ephemeral database name, line 38:
`dbname = f'{self.config.dbname}_{now}_{suffix}'`. -/
def derivedName (pfx : String) (now : Nat) (suffix : String) : String :=
  pfx ++ "_" ++ toString now ++ "_" ++ suffix

/-- Result of unwinding (part of) the with-stack: the surviving databases of
this run, the error now in flight, and the teardown statements that executed
successfully. -/
structure ExitRes where
  server : List String
  err : Option Err
  trace : List Ev
deriving DecidableEq, Repr

/-- The outer `finally` of `createdb` (lines 56-65): terminate the backends
connected to the database, then `DROP DATABASE`.  A failing statement raises,
replacing the in-flight error and aborting the rest of the block, so a failed
termination skips the drop. -/
def teardown_finally (x : Sfx) (name : String) (fl : SideOracle)
    (inflight : Option Err) (s : List String) : ExitRes :=
  if fl.terminateFails then ⟨s, some (Err.terminate x), []⟩
  else if fl.dropFails then ⟨s, some (Err.drop x), [Ev.terminateEv x]⟩
  else ⟨s.filter (fun n => n != name), inflight, [Ev.terminateEv x, Ev.dropEv x]⟩

/-- Full exit path of a `createdb` scope whose engine was created: the inner
`finally` runs `engine.dispose()` (line 55) — its failure replaces the
in-flight error — and then the outer `finally` (lines 56-65) runs. -/
def createdb_exit (x : Sfx) (name : String) (fl : SideOracle)
    (inflight : Option Err) (s : List String) : ExitRes :=
  teardown_finally x name fl
    (if fl.disposeFails then some (Err.dispose x) else inflight) s

/-- Exit of `with dba.createdb('schema') as _, dba.createdb('migrations') as _`
once both scopes are entered: the migrations scope unwinds first, then the
schema scope, each seeing the error left by the previous step. -/
def unwindBoth (o : Oracle) (sname mname : String) (inflight : Option Err)
    (s : List String) : ExitRes :=
  let r1 := createdb_exit Sfx.migrations mname o.migrations inflight s
  let r2 := createdb_exit Sfx.schema sname o.schema r1.err r1.server
  ⟨r2.server, r2.err, r1.trace ++ r2.trace⟩

/-! ## SQL text built by the source (f-strings), and identifier semantics -/

/-- A single-quote character, used in the COMMENT statement text. -/
def sq : String := (Char.ofNat 39).toString

/-- Line 39: `f'CREATE DATABASE "{dbname}"'`. -/
def createdb_create_sql (dbname : String) : String :=
  "CREATE DATABASE \"" ++ dbname ++ "\""

/-- Line 40: the COMMENT statement, name double-quoted, marker single-quoted. -/
def createdb_comment_sql (dbname : String) : String :=
  "COMMENT ON DATABASE \"" ++ dbname ++ "\" IS " ++ sq ++ TUSKER_COMMENT ++ sq

/-- Line 65: `f'DROP DATABASE {dbname}'` — note: no identifier quoting. -/
def createdb_drop_sql (dbname : String) : String :=
  "DROP DATABASE " ++ dbname

/-- Line 120 in `cmd_clean`: `f'DROP DATABASE "{dbname}"'` — quoted. -/
def cmd_clean_drop_sql (dbname : String) : String :=
  "DROP DATABASE \"" ++ dbname ++ "\""

/-- Modelled from the server's identifier rules: first character of an
unquoted identifier token (ASCII letters and underscore). -/
def isIdentStartAny (c : Char) : Bool := c.isAlpha || c == '_'

/-- Modelled from the server's identifier rules: later characters of an
unquoted identifier token. -/
def isIdentTailAny (c : Char) : Bool := c.isAlphanum || c == '_' || c == '$'

/-- Whether `s` lexes as a single unquoted identifier token. -/
def lexesAsIdent (s : String) : Bool :=
  match s.data with
  | [] => false
  | c :: cs => isIdentStartAny c && cs.all isIdentTailAny

/-- ASCII case folding of one character, as the server applies to unquoted
identifiers (uppercase letters map to lowercase, 32 code points up). -/
def foldChar (c : Char) : Char :=
  if c.isUpper then Char.ofNat (c.toNat + 32) else c

/-- Case folding of a whole identifier. -/
def pgFold (s : String) : String := String.mk (s.data.map foldChar)

/-- A derived name is usable unquoted exactly when it lexes as an identifier
and is already fully folded (no uppercase letters): lowercase letters, digits,
underscore and dollar, not starting with a digit or dollar. -/
def isValidUnquotedIdent (s : String) : Bool :=
  match s.data with
  | [] => false
  | c :: cs =>
    (c.isLower || c == '_') &&
      cs.all (fun d => d.isLower || d.isDigit || d == '_' || d == '$')

/-- The database denoted by an unquoted identifier token in a DDL statement:
the token case-folded, or nothing when the text is not one identifier token. -/
def dropTargetOfUnquoted (t : String) : Option String :=
  if lexesAsIdent t then some (pgFold t) else none

/-- Executing a DROP DATABASE whose target resolved to `target` against the
set `s` of existing databases: dropping a non-existing database (or a
statement that does not parse) fails, returning `none`. -/
def execDrop (target : Option String) (s : List String) : Option (List String) :=
  match target with
  | none => none
  | some m => if s.contains m then some (s.filter (fun n => n != m)) else none

/-! ## Sorting of the migration directory (cmd_diff, lines 84-93)

Python's `sorted` on strings is plain lexicographic comparison of code
points.  `String`'s library order does not reduce in the kernel, so the
comparator is defined structurally over the character data; insertion sort
produces the same list as any stable sort under a total order on strings,
since equal keys are identical strings. -/

/-- Code-point lexicographic comparison of character lists. -/
def lexLeB : List Char → List Char → Bool
  | [], _ => true
  | _ :: _, [] => false
  | a :: as, b :: bs =>
    if a.toNat < b.toNat then true
    else if b.toNat < a.toNat then false
    else lexLeB as bs

/-- Python's `<=` on strings. -/
def lexLe (a b : String) : Bool := lexLeB a.data b.data

/-- Insert into a sorted list, keeping it sorted. -/
def insertSorted (x : String) : List String → List String
  | [] => [x]
  | y :: ys => if lexLe x y then x :: y :: ys else y :: insertSorted x ys

/-- `sorted(...)` of Python, line 84. -/
def sortFiles : List String → List String
  | [] => []
  | x :: xs => insertSorted x (sortFiles xs)

/-- Line 85: `if not filename.endswith('.sql'): continue`. -/
def endsWithSql (f : String) : Bool :=
  List.isSuffixOf ".sql".data f.data

/-- The migration files of a directory listing in the order `cmd_diff`
applies them: the listing sorted lexicographically, keeping `.sql` files. -/
def migrationApplyOrder (files : List String) : List String :=
  (sortFiles files).filter (fun f => endsWithSql f)

/-- Sortedness predicate for the Python string order. -/
abbrev LexSorted (l : List String) : Prop :=
  List.Pairwise (fun a b => lexLe a b = true) l

lemma lexLeB_total (a b : List Char) : lexLeB a b = true ∨ lexLeB b a = true := by
  induction a generalizing b with
  | nil => exact Or.inl rfl
  | cons x xs ih =>
    cases b with
    | nil => exact Or.inr rfl
    | cons y ys =>
      rcases Nat.lt_trichotomy x.toNat y.toNat with h | h | h
      · exact Or.inl (by simp [lexLeB, h])
      · have hxy : ¬ x.toNat < y.toNat := by omega
        have hyx : ¬ y.toNat < x.toNat := by omega
        rcases ih ys with h2 | h2
        · exact Or.inl (by simp [lexLeB, hxy, hyx, h2])
        · exact Or.inr (by simp [lexLeB, hxy, hyx, h2])
      · exact Or.inr (by simp [lexLeB, h])

lemma lexLe_total (a b : String) : lexLe a b = true ∨ lexLe b a = true :=
  lexLeB_total a.data b.data

lemma lexLeB_trans : ∀ a b c : List Char,
    lexLeB a b = true → lexLeB b c = true → lexLeB a c = true := by
  intro a
  induction a with
  | nil => intro b c _ _; rfl
  | cons x xs ih =>
    intro b c h1 h2
    cases b with
    | nil => simp [lexLeB] at h1
    | cons y ys =>
      cases c with
      | nil => simp [lexLeB] at h2
      | cons z zs =>
        simp only [lexLeB] at h1 h2 ⊢
        by_cases hxy : x.toNat < y.toNat
        · by_cases hyz : y.toNat < z.toNat
          · have : x.toNat < z.toNat := by omega
            simp [this]
          · by_cases hzy : z.toNat < y.toNat
            · simp [hyz, hzy] at h2
            · have : x.toNat < z.toNat := by omega
              simp [this]
        · by_cases hyx : y.toNat < x.toNat
          · simp [hxy, hyx] at h1
          · have hxyEq : x.toNat = y.toNat := by omega
            by_cases hyz : y.toNat < z.toNat
            · have : x.toNat < z.toNat := by omega
              simp [this]
            · by_cases hzy : z.toNat < y.toNat
              · simp [hyz, hzy] at h2
              · have hxz : ¬ x.toNat < z.toNat := by omega
                have hzx : ¬ z.toNat < x.toNat := by omega
                rw [if_neg hxy, if_neg hyx] at h1
                rw [if_neg hyz, if_neg hzy] at h2
                rw [if_neg hxz, if_neg hzx]
                exact ih ys zs h1 h2

lemma lexLe_trans (a b c : String) :
    lexLe a b = true → lexLe b c = true → lexLe a c = true :=
  lexLeB_trans a.data b.data c.data

lemma mem_insertSorted (x y : String) (l : List String) :
    y ∈ insertSorted x l ↔ y = x ∨ y ∈ l := by
  induction l with
  | nil => simp [insertSorted]
  | cons z zs ih =>
    by_cases h : lexLe x z = true
    · simp [insertSorted, h]
    · simp only [insertSorted, if_neg h, List.mem_cons, ih]
      tauto

lemma insertSorted_sorted (x : String) (l : List String)
    (hl : LexSorted l) : LexSorted (insertSorted x l) := by
  induction l with
  | nil => simp [insertSorted]
  | cons y ys ih =>
    rcases hl with _ | ⟨hy, hys⟩
    unfold insertSorted
    by_cases h : lexLe x y = true
    · rw [if_pos h]
      refine List.Pairwise.cons ?_ (List.Pairwise.cons hy hys)
      intro z hz
      rcases List.mem_cons.mp hz with rfl | hz
      · exact h
      · exact lexLe_trans x y z h (hy z hz)
    · rw [if_neg h]
      refine List.Pairwise.cons ?_ (ih hys)
      intro z hz
      rcases (mem_insertSorted x z ys).mp hz with hzx | hz
      · rw [hzx]
        rcases lexLe_total x y with h2 | h2
        · exact absurd h2 h
        · exact h2
      · exact hy z hz

lemma sortFiles_sorted (l : List String) : LexSorted (sortFiles l) := by
  induction l with
  | nil => simp [sortFiles]
  | cons x xs ih => exact insertSorted_sorted x (sortFiles xs) ih

lemma migrationApplyOrder_sorted (files : List String) :
    LexSorted (migrationApplyOrder files) :=
  List.Pairwise.filter _ (sortFiles_sorted files)

/-! ## The diff pipeline (`cmd_diff`, lines 68-100) -/

/-- Python's `print` accepts exactly these keyword arguments. -/
def PRINT_KWARGS : List String := ["sep", "end", "file", "flush"]

/-- A `print` call succeeds only if every keyword argument it passes is one
`print` accepts; otherwise it raises TypeError before writing anything. -/
def printCallOk (kw : List String) : Bool :=
  kw.all (fun k => PRINT_KWARGS.contains k)

/-- The keyword every verbose progress notice passes: `out=sys.stderr`
(lines 71, 75, 82, 88, 95, and 119 in `cmd_clean`). -/
def notice_kwarg : String := "out"

/-- The keyword of the final DDL print, line 100: `end=''`. -/
def ddl_kwarg : String := "end"

/-- Result of one run of `cmd_diff`: the run's databases still existing on
the server, the two output streams, the (source, target) pair the diff engine
was invoked with, the error that reached the top level, and the successful
pipeline statements in execution order. -/
structure RunResult where
  server : List String
  stdout : String
  stderr : List String
  diffCall : Option (String × String)
  err : Option Err
  trace : List Ev
deriving DecidableEq, Repr

/-- One run of `cmd_diff` (lines 68-100), with statement failures injected by
the oracle `o`.  `pfx` is `self.config.dbname`, `now` the epoch timestamp,
`ddl` the script the diff engine returns when it succeeds.  Control flow
follows the source: `DatabaseAdmin(cfg)` connects; each verbose notice calls
`print` with the invalid keyword `out` and so raises TypeError; the two
`createdb` scopes are entered in order (CREATE, COMMENT outside the guarded
region, engine creation inside the outer try); the body applies the schema
file, the migration files, invokes `migra.Migration(migrations_engine,
schema_engine)` and prints the result; every exit path unwinds the entered
scopes in reverse order. -/
def cmd_diff_run (o : Oracle) (verbose : Bool) (pfx : String) (now : Nat)
    (ddl : String) : RunResult :=
  if o.connectFails then ⟨[], "", [], none, some Err.connect, []⟩ else
  -- if args.verbose: print('Creating databases...', out=sys.stderr)
  if verbose && !printCallOk [notice_kwarg] then
    ⟨[], "", [], none, some Err.badPrint, []⟩ else
  let errs0 : List String := if verbose then ["Creating databases..."] else []
  -- with dba.createdb('schema') as schema_engine, ...
  if o.schema.createFails then
    ⟨[], "", errs0, none, some (Err.create Sfx.schema), []⟩ else
  let sname := derivedName pfx now "schema"
  let s1 : List String := [sname]
  let t1 : List Ev := [Ev.createEv Sfx.schema]
  -- COMMENT ON DATABASE runs before the try of lines 41-65: its failure
  -- propagates without any teardown of the database just created
  if o.schema.commentFails then
    ⟨s1, "", errs0, none, some (Err.comment Sfx.schema), t1⟩ else
  let t2 := t1 ++ [Ev.commentEv Sfx.schema]
  if o.schema.engineFails then
    -- create_engine raised inside the outer try, before the inner try:
    -- only the outer finally (terminate + drop) runs
    let r := teardown_finally Sfx.schema sname o.schema
      (some (Err.engine Sfx.schema)) s1
    ⟨r.server, "", errs0, none, r.err, t2 ++ r.trace⟩
  else
  -- ... dba.createdb('migrations') as migrations_engine
  if o.migrations.createFails then
    let r := createdb_exit Sfx.schema sname o.schema
      (some (Err.create Sfx.migrations)) s1
    ⟨r.server, "", errs0, none, r.err, t2 ++ r.trace⟩
  else
  let mname := derivedName pfx now "migrations"
  let s2 := s1 ++ [mname]
  let t3 := t2 ++ [Ev.createEv Sfx.migrations]
  if o.migrations.commentFails then
    -- the migrations database leaks and the schema scope unwinds
    let r := createdb_exit Sfx.schema sname o.schema
      (some (Err.comment Sfx.migrations)) s2
    ⟨r.server, "", errs0, none, r.err, t3 ++ r.trace⟩
  else
  let t4 := t3 ++ [Ev.commentEv Sfx.migrations]
  if o.migrations.engineFails then
    let r1 := teardown_finally Sfx.migrations mname o.migrations
      (some (Err.engine Sfx.migrations)) s2
    let r2 := createdb_exit Sfx.schema sname o.schema r1.err r1.server
    ⟨r2.server, "", errs0, none, r2.err, t4 ++ r1.trace ++ r2.trace⟩
  else
  -- body: schema_cursor = schema_engine.connect();
  -- if args.verbose: print('Creating target schema...', out=sys.stderr)
  if verbose && !printCallOk [notice_kwarg] then
    let r := unwindBoth o sname mname (some Err.badPrint) s2
    ⟨r.server, "", errs0, none, r.err, t4 ++ r.trace⟩
  else
  let errs1 := errs0 ++ (if verbose then ["Creating target schema..."] else [])
  -- open(cfg.schema.filename); schema_cursor.execute(sql) if not blank
  if o.applySchemaFails then
    let r := unwindBoth o sname mname (some Err.applySchema) s2
    ⟨r.server, "", errs1, none, r.err, t4 ++ r.trace⟩
  else
  let t5 := t4 ++ [Ev.applySchemaEv]
  -- if args.verbose: print('Creating migrated schema...', out=sys.stderr);
  -- the per-file notices inside the loop pass the same invalid keyword
  if verbose && !printCallOk [notice_kwarg] then
    let r := unwindBoth o sname mname (some Err.badPrint) s2
    ⟨r.server, "", errs1, none, r.err, t5 ++ r.trace⟩
  else
  let errs2 := errs1 ++ (if verbose then ["Creating migrated schema..."] else [])
  -- the migration loop: sorted .sql files applied in order, abort on failure
  if o.applyMigrFails then
    let r := unwindBoth o sname mname (some Err.applyMigr) s2
    ⟨r.server, "", errs2, none, r.err, t5 ++ r.trace⟩
  else
  let t6 := t5 ++ [Ev.applyMigrEv]
  -- if args.verbose: print('Diffing...', out=sys.stderr)
  if verbose && !printCallOk [notice_kwarg] then
    let r := unwindBoth o sname mname (some Err.badPrint) s2
    ⟨r.server, "", errs2, none, r.err, t6 ++ r.trace⟩
  else
  let errs3 := errs2 ++ (if verbose then ["Diffing..."] else [])
  -- migration = migra.Migration(migrations_engine, schema_engine):
  -- the engine is invoked with the migrations database as first (source)
  -- argument and the schema database as second (target) argument
  let call := some (mname, sname)
  if o.diffFails then
    let r := unwindBoth o sname mname (some Err.diff) s2
    ⟨r.server, "", errs3, call, r.err, t6 ++ r.trace⟩
  else
  let t7 := t6 ++ [Ev.diffInvokeEv]
  -- print(migration.sql, end='')
  if !printCallOk [ddl_kwarg] then
    let r := unwindBoth o sname mname (some Err.badPrint) s2
    ⟨r.server, "", errs3, call, r.err, t7 ++ r.trace⟩
  else
  let r := unwindBoth o sname mname none s2
  ⟨r.server, ddl, errs3, call, r.err, t7 ++ r.trace⟩

/-! ## Creation-phase states (`createdb`, lines 36-40)

The admin connection runs with autocommit, so CREATE DATABASE and
COMMENT ON DATABASE are two separately effective statements; the states of
the server visible during the creation phase are the state before CREATE,
the state between the two statements, and the state after COMMENT. -/

/-- A database on the server: its name and its attached comment. -/
structure DB where
  name : String
  comment : Option String
deriving DecidableEq, Repr

/-- Effect of `CREATE DATABASE "{dbname}"`: a new database with no comment. -/
def createStep (dbname : String) (s : List DB) : List DB :=
  s ++ [⟨dbname, none⟩]

/-- Effect of `COMMENT ON DATABASE "{dbname}" IS '...'`: the marker comment
is attached to the named database. -/
def commentStep (dbname : String) (s : List DB) : List DB :=
  s.map (fun db => if db.name = dbname then ⟨db.name, some TUSKER_COMMENT⟩ else db)

/-- The server states reachable during the creation phase of `createdb`. -/
def creationStates (dbname : String) (s0 : List DB) : List (List DB) :=
  [s0, createStep dbname s0, commentStep dbname (createStep dbname s0)]

/-! ## The sweep (`cmd_clean`, lines 103-120) -/

/-- Whether a database name contains a double-quote character:
`'"' in dbname`, line 116. -/
def hasQuote (n : String) : Bool := n.data.contains '"'

/-- Errors a `cmd_clean` run can raise. -/
inductive CleanErr
  | unsafeName (n : String)
  | badPrintClean
deriving DecidableEq, Repr

/-- The orphan query, lines 107-113: every database whose attached
`pg_shdescription` comment is exactly the marker text, fetched before any
drop happens. -/
def listOrphanNames (s : List DB) : List String :=
  (s.filter (fun db => db.comment == some TUSKER_COMMENT)).map (fun db => db.name)

/-- The drop loop of `cmd_clean`, lines 114-120: for each fetched name,
fail fatally if it contains a quote, otherwise (after the verbose notice,
which passes the invalid `out` keyword) drop the database by exact quoted
name.  An error ends the loop at once; nothing after it is touched. -/
def dropLoop (verbose : Bool) : List String → List DB → List DB × Option CleanErr
  | [], s => (s, none)
  | n :: rest, s =>
    if hasQuote n then (s, some (CleanErr.unsafeName n))
    else if verbose && !printCallOk [notice_kwarg] then
      (s, some CleanErr.badPrintClean)
    else dropLoop verbose rest (s.filter (fun db => db.name != n))

/-- One run of `cmd_clean` against server state `s`. -/
def cmd_clean_run (verbose : Bool) (s : List DB) : List DB × Option CleanErr :=
  dropLoop verbose (listOrphanNames s) s

/-! ## Helper lemmas -/

lemma printCallOk_notice : printCallOk [notice_kwarg] = false := by decide

lemma printCallOk_ddl : printCallOk [ddl_kwarg] = true := by decide

lemma filter_ne_self (a : String) : List.filter (fun n => n != a) [a] = [] := by
  simp

lemma filter_pair_ne (a b : String) :
    List.filter (fun n => n != a) (List.filter (fun n => n != b) [a, b]) = [] := by
  by_cases h : a = b <;> simp [h]

lemma teardown_finally_server (x : Sfx) (name : String) (fl : SideOracle)
    (inflight : Option Err) (s : List String)
    (ht : fl.terminateFails = false) (hd : fl.dropFails = false) :
    (teardown_finally x name fl inflight s).server
      = s.filter (fun n => n != name) := by
  simp [teardown_finally, ht, hd]

lemma createdb_exit_server (x : Sfx) (name : String) (fl : SideOracle)
    (inflight : Option Err) (s : List String)
    (ht : fl.terminateFails = false) (hd : fl.dropFails = false) :
    (createdb_exit x name fl inflight s).server
      = s.filter (fun n => n != name) := by
  simp [createdb_exit, teardown_finally, ht, hd]

lemma unwindBoth_server (o : Oracle) (sname mname : String)
    (inflight : Option Err) (s : List String)
    (h3 : o.schema.terminateFails = false) (h4 : o.schema.dropFails = false)
    (h5 : o.migrations.terminateFails = false)
    (h6 : o.migrations.dropFails = false) :
    (unwindBoth o sname mname inflight s).server
      = (s.filter (fun n => n != mname)).filter (fun n => n != sname) := by
  simp [unwindBoth, createdb_exit, teardown_finally, h3, h4, h5, h6]

lemma teardown_finally_err_term (x : Sfx) (name : String) (fl : SideOracle)
    (inflight : Option Err) (s : List String)
    (ht : fl.terminateFails = true) :
    (teardown_finally x name fl inflight s).err = some (Err.terminate x) := by
  simp [teardown_finally, ht]

lemma createdb_exit_err_term (x : Sfx) (name : String) (fl : SideOracle)
    (inflight : Option Err) (s : List String)
    (ht : fl.terminateFails = true) :
    (createdb_exit x name fl inflight s).err = some (Err.terminate x) := by
  simp [createdb_exit, teardown_finally, ht]

lemma createdb_exit_err_ok (x : Sfx) (name : String) (fl : SideOracle)
    (inflight : Option Err) (s : List String)
    (hdis : fl.disposeFails = false)
    (ht : fl.terminateFails = false) (hd : fl.dropFails = false) :
    (createdb_exit x name fl inflight s).err = inflight := by
  simp [createdb_exit, teardown_finally, hdis, ht, hd]

lemma unwindBoth_err_term (o : Oracle) (sname mname : String)
    (inflight : Option Err) (s : List String)
    (h8 : o.migrations.terminateFails = true)
    (h9 : o.schema.disposeFails = false)
    (h10 : o.schema.terminateFails = false)
    (h11 : o.schema.dropFails = false) :
    (unwindBoth o sname mname inflight s).err
      = some (Err.terminate Sfx.migrations) := by
  simp [unwindBoth, createdb_exit, teardown_finally, h8, h9, h10, h11]

lemma teardown_finally_err_drop (x : Sfx) (name : String) (fl : SideOracle)
    (inflight : Option Err) (s : List String)
    (ht : fl.terminateFails = false) (hd : fl.dropFails = true) :
    (teardown_finally x name fl inflight s).err = some (Err.drop x) := by
  simp [teardown_finally, ht, hd]

lemma createdb_exit_err_drop (x : Sfx) (name : String) (fl : SideOracle)
    (inflight : Option Err) (s : List String)
    (ht : fl.terminateFails = false) (hd : fl.dropFails = true) :
    (createdb_exit x name fl inflight s).err = some (Err.drop x) := by
  simp [createdb_exit, teardown_finally, ht, hd]

lemma unwindBoth_err_drop_migr (o : Oracle) (sname mname : String)
    (inflight : Option Err) (s : List String)
    (hmt : o.migrations.terminateFails = false)
    (hmd : o.migrations.dropFails = true)
    (h9 : o.schema.disposeFails = false)
    (h10 : o.schema.terminateFails = false)
    (h11 : o.schema.dropFails = false) :
    (unwindBoth o sname mname inflight s).err
      = some (Err.drop Sfx.migrations) := by
  simp [unwindBoth, createdb_exit, teardown_finally, hmt, hmd, h9, h10, h11]

lemma unwindBoth_err_term_schema (o : Oracle) (sname mname : String)
    (inflight : Option Err) (s : List String)
    (hst : o.schema.terminateFails = true) :
    (unwindBoth o sname mname inflight s).err
      = some (Err.terminate Sfx.schema) := by
  simp [unwindBoth, createdb_exit, teardown_finally, hst]

lemma unwindBoth_err_drop_schema (o : Oracle) (sname mname : String)
    (inflight : Option Err) (s : List String)
    (hst : o.schema.terminateFails = false)
    (hsd : o.schema.dropFails = true) :
    (unwindBoth o sname mname inflight s).err
      = some (Err.drop Sfx.schema) := by
  simp [unwindBoth, createdb_exit, teardown_finally, hst, hsd]

/-! ## Claim theorems -/

/-- C2: whenever the scope of an ephemeral database created by `createdb`
exits — on normal completion (`inflight = none`) or because the body raised
(`inflight = some e`), and even if `engine.dispose()` itself raised — the
outer finally executes unconditionally: the backend sessions of that
database are terminated first and the database is dropped second, in that
order, and the database is gone from the server. -/
theorem createdb_teardown_unconditional (x : Sfx) (name : String)
    (fl : SideOracle) (inflight : Option Err) (s : List String)
    (ht : fl.terminateFails = false) (hd : fl.dropFails = false) :
    (createdb_exit x name fl inflight s).trace
        = [Ev.terminateEv x, Ev.dropEv x] ∧
    (createdb_exit x name fl inflight s).server
        = s.filter (fun n => n != name) := by
  simp [createdb_exit, teardown_finally, ht, hd]

theorem createdb_teardown_unconditional_witness :
    (createdb_exit Sfx.schema "tusker_0_schema"
      ⟨false, false, false, true, false, false⟩
      (some Err.applySchema) ["tusker_0_schema"]).trace
        = [Ev.terminateEv Sfx.schema, Ev.dropEv Sfx.schema] ∧
    (createdb_exit Sfx.schema "tusker_0_schema"
      ⟨false, false, false, true, false, false⟩
      (some Err.applySchema) ["tusker_0_schema"]).server
        = List.filter (fun n => n != "tusker_0_schema") ["tusker_0_schema"] :=
  createdb_teardown_unconditional Sfx.schema "tusker_0_schema"
    ⟨false, false, false, true, false, false⟩ (some Err.applySchema)
    ["tusker_0_schema"] rfl rfl

set_option maxRecDepth 4096 in
/-- C6: the migration directory is applied in plain lexicographic filename
order: in the applied order of any directory listing, every occurrence of
"10-a.sql" comes strictly before every occurrence of "2-b.sql". -/
theorem migration_order_lex (files : List String)
    (i j : Fin (migrationApplyOrder files).length)
    (hi : (migrationApplyOrder files).get i = "10-a.sql")
    (hj : (migrationApplyOrder files).get j = "2-b.sql") :
    (i : Nat) < (j : Nat) := by
  have hs := List.pairwise_iff_get.mp (migrationApplyOrder_sorted files)
  rcases Nat.lt_trichotomy (i : Nat) (j : Nat) with h | h | h
  · exact h
  · exfalso
    have hij : i = j := Fin.ext h
    rw [hij, hj] at hi
    exact absurd hi (by decide)
  · exfalso
    have h2 := hs j i h
    rw [hi, hj] at h2
    exact absurd h2 (by decide)

theorem migration_order_lex_witness :
    migrationApplyOrder ["2-b.sql", "10-a.sql", "README.md"]
      = ["10-a.sql", "2-b.sql"] ∧ (0 : Nat) < (1 : Nat) :=
  ⟨by decide,
   migration_order_lex ["2-b.sql", "10-a.sql", "README.md"]
     ⟨0, by decide⟩ ⟨1, by decide⟩ (by decide) (by decide)⟩

/-- C7: whenever `cmd_diff` reaches the diff step, the diff engine is
invoked with the migrations database as the source (first) argument and the
schema database as the target (second) argument, whether or not the diff
itself then succeeds. -/
theorem diff_call_direction (o : Oracle) (pfx : String) (now : Nat)
    (ddl : String)
    (h1 : o.connectFails = false)
    (h2 : o.schema.createFails = false) (h3 : o.schema.commentFails = false)
    (h4 : o.schema.engineFails = false)
    (h5 : o.migrations.createFails = false)
    (h6 : o.migrations.commentFails = false)
    (h7 : o.migrations.engineFails = false)
    (h8 : o.applySchemaFails = false) (h9 : o.applyMigrFails = false) :
    (cmd_diff_run o false pfx now ddl).diffCall
      = some (derivedName pfx now "migrations", derivedName pfx now "schema") := by
  cases hdf : o.diffFails <;>
    simp [cmd_diff_run, h1, h2, h3, h4, h5, h6, h7, h8, h9, hdf,
      printCallOk_notice, printCallOk_ddl]

theorem diff_call_direction_witness :
    (cmd_diff_run okOracle false "tusker" 0 "").diffCall
      = some (derivedName "tusker" 0 "migrations", derivedName "tusker" 0 "schema") :=
  diff_call_direction okOracle "tusker" 0 ""
    rfl rfl rfl rfl rfl rfl rfl rfl rfl

/-- C3 (code bug): in verbose mode the very first progress notice calls
`print('Creating databases...', out=sys.stderr)`; `out` is not a keyword
`print` accepts, so the call raises TypeError immediately: the run writes
nothing to either stream, creates nothing, and the DDL is never printed —
no progress notice ever reaches the diagnostic stream. -/
theorem diff_verbose_crashes (o : Oracle) (pfx : String) (now : Nat)
    (ddl : String) (h : o.connectFails = false) :
    cmd_diff_run o true pfx now ddl
      = ⟨[], "", [], none, some Err.badPrint, []⟩ := by
  simp [cmd_diff_run, h, printCallOk_notice]

theorem diff_verbose_crashes_witness :
    cmd_diff_run okOracle true "tusker" 0 "CREATE TABLE t (id int);"
      = ⟨[], "", [], none, some Err.badPrint, []⟩ :=
  diff_verbose_crashes okOracle "tusker" 0 "CREATE TABLE t (id int);" rfl

/-- C1 (counterexample): a run whose marker-write statement for the schema
database fails leaves that database on the server: `CREATE DATABASE` and
`COMMENT ON DATABASE` run before the try/finally of lines 41-65, so the
failure propagates without any teardown and the database of that run
still exists after the process returns. -/
theorem diff_leaks_on_marker_write_failure :
    (cmd_diff_run ⟨false, ⟨false, true, false, false, false, false⟩, okSide,
        false, false, false⟩ false "tusker" 0 "").server
      = [derivedName "tusker" 0 "schema"] ∧
    (cmd_diff_run ⟨false, ⟨false, true, false, false, false, false⟩, okSide,
        false, false, false⟩ false "tusker" 0 "").err
      = some (Err.comment Sfx.schema) := by
  constructor <;> rfl

set_option maxRecDepth 8192 in
/-- C1 (amended): for every run of the diff operation — whatever combination
of steps fails — if the marker-write statements of the databases the run
created succeeded and the teardown statements (session termination and drop)
of both scopes succeeded, then no database created by that run still exists
on the server after the process returns. -/
theorem diff_no_leak (o : Oracle) (v : Bool) (pfx : String) (now : Nat)
    (ddl : String)
    (h1 : o.schema.commentFails = false)
    (h2 : o.migrations.commentFails = false)
    (h3 : o.schema.terminateFails = false) (h4 : o.schema.dropFails = false)
    (h5 : o.migrations.terminateFails = false)
    (h6 : o.migrations.dropFails = false) :
    (cmd_diff_run o v pfx now ddl).server = [] := by
  simp only [cmd_diff_run, h1, h2]
  repeat rw [apply_ite RunResult.server]
  simp [teardown_finally_server, createdb_exit_server, unwindBoth_server,
    h3, h4, h5, h6, filter_ne_self, filter_pair_ne, ite_self]

theorem diff_no_leak_witness :
    (cmd_diff_run ⟨false, okSide, okSide, false, false, true⟩ false
      "tusker" 7 "ALTER TABLE t ADD c int;").server = [] :=
  diff_no_leak ⟨false, okSide, okSide, false, false, true⟩ false
    "tusker" 7 "ALTER TABLE t ADD c int;" rfl rfl rfl rfl rfl rfl

/-- C5 (counterexample): a run in which the diff engine raises and the
session-termination statement of the migrations teardown then also fails
surfaces the teardown error, not the earlier in-flight diff error. -/
theorem teardown_error_masks_counterexample :
    (cmd_diff_run ⟨false, okSide, ⟨false, false, false, false, true, false⟩,
        false, false, true⟩ false "tusker" 0 "").err
      ≠ some Err.diff ∧
    (cmd_diff_run ⟨false, okSide, ⟨false, false, false, false, true, false⟩,
        false, false, true⟩ false "tusker" 0 "").err
      = some (Err.terminate Sfx.migrations) := by
  constructor
  · intro h
    exact absurd h (by decide)
  · rfl

set_option maxRecDepth 8192 in
/-- C5 (amended): when a session-termination or drop statement of either
ephemeral database's teardown fails, the in-flight error is not the error
surfaced: each failing teardown statement replaces the error in flight at
that moment (Python keeps the replaced exception only as chained context),
so the error surfaced to the top level is that of the last failing teardown
statement — for each of the four teardown statements (terminate then drop
of the migrations scope, which unwinds first, then terminate then drop of
the schema scope), if it is the last failing statement of the run, its
error is the one surfaced, whatever error was in flight; in particular a
teardown failure is also the surfaced error when it is the sole failure. -/
theorem teardown_error_replaces_inflight (o : Oracle) (pfx : String)
    (now : Nat) (ddl : String)
    (h1 : o.connectFails = false)
    (h2 : o.schema.createFails = false) (h3 : o.schema.commentFails = false)
    (h4 : o.schema.engineFails = false)
    (h5 : o.migrations.createFails = false)
    (h6 : o.migrations.commentFails = false)
    (h7 : o.migrations.engineFails = false) :
    (o.migrations.terminateFails = true → o.schema.disposeFails = false →
      o.schema.terminateFails = false → o.schema.dropFails = false →
      (cmd_diff_run o false pfx now ddl).err
        = some (Err.terminate Sfx.migrations)) ∧
    (o.migrations.terminateFails = false → o.migrations.dropFails = true →
      o.schema.disposeFails = false → o.schema.terminateFails = false →
      o.schema.dropFails = false →
      (cmd_diff_run o false pfx now ddl).err
        = some (Err.drop Sfx.migrations)) ∧
    (o.schema.terminateFails = true →
      (cmd_diff_run o false pfx now ddl).err
        = some (Err.terminate Sfx.schema)) ∧
    (o.schema.terminateFails = false → o.schema.dropFails = true →
      (cmd_diff_run o false pfx now ddl).err
        = some (Err.drop Sfx.schema)) := by
  refine ⟨?_, ?_, ?_, ?_⟩
  · intro ha hb hc hd
    simp only [cmd_diff_run, h1, h2, h3, h4, h5, h6, h7]
    repeat rw [apply_ite RunResult.err]
    simp [unwindBoth_err_term, ha, hb, hc, hd, ite_self]
  · intro ha hb hc hd he
    simp only [cmd_diff_run, h1, h2, h3, h4, h5, h6, h7]
    repeat rw [apply_ite RunResult.err]
    simp [unwindBoth_err_drop_migr, ha, hb, hc, hd, he, ite_self]
  · intro ha
    simp only [cmd_diff_run, h1, h2, h3, h4, h5, h6, h7]
    repeat rw [apply_ite RunResult.err]
    simp [unwindBoth_err_term_schema, ha, ite_self]
  · intro ha hb
    simp only [cmd_diff_run, h1, h2, h3, h4, h5, h6, h7]
    repeat rw [apply_ite RunResult.err]
    simp [unwindBoth_err_drop_schema, ha, hb, ite_self]

theorem teardown_error_replaces_inflight_witness :
    (cmd_diff_run ⟨false, okSide, ⟨false, false, false, false, true, false⟩,
        false, true, false⟩ false "tusker" 0 "").err
      = some (Err.terminate Sfx.migrations) ∧
    (cmd_diff_run ⟨false, okSide, ⟨false, false, false, false, false, true⟩,
        false, false, true⟩ false "tusker" 0 "").err
      = some (Err.drop Sfx.migrations) ∧
    (cmd_diff_run ⟨false, ⟨false, false, false, false, true, false⟩, okSide,
        false, false, true⟩ false "tusker" 0 "").err
      = some (Err.terminate Sfx.schema) ∧
    (cmd_diff_run ⟨false, ⟨false, false, false, false, false, true⟩, okSide,
        false, false, true⟩ false "tusker" 0 "").err
      = some (Err.drop Sfx.schema) :=
  ⟨(teardown_error_replaces_inflight
      ⟨false, okSide, ⟨false, false, false, false, true, false⟩,
        false, true, false⟩ "tusker" 0 ""
      rfl rfl rfl rfl rfl rfl rfl).1 rfl rfl rfl rfl,
   (teardown_error_replaces_inflight
      ⟨false, okSide, ⟨false, false, false, false, false, true⟩,
        false, false, true⟩ "tusker" 0 ""
      rfl rfl rfl rfl rfl rfl rfl).2.1 rfl rfl rfl rfl rfl,
   (teardown_error_replaces_inflight
      ⟨false, ⟨false, false, false, false, true, false⟩, okSide,
        false, false, true⟩ "tusker" 0 ""
      rfl rfl rfl rfl rfl rfl rfl).2.2.1 rfl,
   (teardown_error_replaces_inflight
      ⟨false, ⟨false, false, false, false, false, true⟩, okSide,
        false, false, true⟩ "tusker" 0 ""
      rfl rfl rfl rfl rfl rfl rfl).2.2.2 rfl rfl⟩

/-- C4 (counterexample): the marker is not set atomically as part of
creation: on the autocommit admin connection the state reached after
`CREATE DATABASE` and before `COMMENT ON DATABASE` is a reachable server
state in which the run's database exists with no comment attached, hence
without the marker comment. -/
theorem marker_gap_counterexample :
    createStep (derivedName "tusker" 0 "schema") []
        ∈ creationStates (derivedName "tusker" 0 "schema") [] ∧
    createStep (derivedName "tusker" 0 "schema") []
        = [⟨"tusker_0_schema", none⟩] ∧
    (none : Option String) ≠ some TUSKER_COMMENT := by
  refine ⟨?_, rfl, by decide⟩
  simp [creationStates]

/-- C4 (amended): the marker comment is written by the statement immediately
following `CREATE DATABASE` and before any schema-materialization statement
runs — the creation phase passes through exactly one intermediate state, in
which the database exists without the marker, and ends with the marker
attached; in the pipeline both databases' comment statements execute before
either apply statement. -/
theorem marker_second_statement (dbname : String) (s0 : List DB)
    (pfx : String) (now : Nat) (ddl : String)
    (hfresh : ∀ db ∈ s0, db.name ≠ dbname) :
    creationStates dbname s0
      = [s0, s0 ++ [⟨dbname, none⟩], s0 ++ [⟨dbname, some TUSKER_COMMENT⟩]] ∧
    (cmd_diff_run okOracle false pfx now ddl).trace
      = [Ev.createEv Sfx.schema, Ev.commentEv Sfx.schema,
         Ev.createEv Sfx.migrations, Ev.commentEv Sfx.migrations,
         Ev.applySchemaEv, Ev.applyMigrEv, Ev.diffInvokeEv,
         Ev.terminateEv Sfx.migrations, Ev.dropEv Sfx.migrations,
         Ev.terminateEv Sfx.schema, Ev.dropEv Sfx.schema] := by
  constructor
  · have hmap : s0.map
        (fun db => if db.name = dbname then
          (⟨db.name, some TUSKER_COMMENT⟩ : DB) else db) = s0 := by
      have := List.map_inj_left (l := s0)
        (f := fun db => if db.name = dbname then
          (⟨db.name, some TUSKER_COMMENT⟩ : DB) else db) (g := id)
      rw [this.mpr, List.map_id]
      intro a ha
      simp [hfresh a ha]
    simp [creationStates, createStep, commentStep, hmap]
  · rfl

theorem marker_second_statement_witness :
    creationStates "tusker_0_schema" [⟨"prod", none⟩]
      = [[⟨"prod", none⟩],
         [⟨"prod", none⟩, ⟨"tusker_0_schema", none⟩],
         [⟨"prod", none⟩, ⟨"tusker_0_schema", some TUSKER_COMMENT⟩]] ∧
    (cmd_diff_run okOracle false "tusker" 0 "").trace
      = [Ev.createEv Sfx.schema, Ev.commentEv Sfx.schema,
         Ev.createEv Sfx.migrations, Ev.commentEv Sfx.migrations,
         Ev.applySchemaEv, Ev.applyMigrEv, Ev.diffInvokeEv,
         Ev.terminateEv Sfx.migrations, Ev.dropEv Sfx.migrations,
         Ev.terminateEv Sfx.schema, Ev.dropEv Sfx.schema] :=
  marker_second_statement "tusker_0_schema" [⟨"prod", none⟩] "tusker" 0 ""
    (by decide)

lemma contains_cons_pred (a2 : List String) (n : String) (s : List DB) :
    List.filter (fun db => !(a2.contains db.name))
        (List.filter (fun db => db.name != n) s)
      = List.filter (fun db => !((n :: a2).contains db.name)) s := by
  rw [List.filter_filter]
  apply List.filter_congr
  intro db _
  by_cases h1 : db.name = n <;> by_cases h2 : db.name ∈ a2 <;>
    simp [h1, h2, List.contains_cons]

lemma dropLoop_all_safe (names : List String) (s : List DB)
    (hsafe : ∀ n ∈ names, hasQuote n = false) :
    dropLoop false names s
      = (s.filter (fun db => !(names.contains db.name)), none) := by
  induction names generalizing s with
  | nil => simp [dropLoop]
  | cons n rest ih =>
    have hn : hasQuote n = false := hsafe n (List.mem_cons_self n rest)
    rw [dropLoop, hn]
    simp only [Bool.false_eq_true, if_false, Bool.false_and,
      Bool.and_eq_true, false_and]
    rw [ih _ (fun m hm => hsafe m (List.mem_cons_of_mem n hm))]
    rw [contains_cons_pred]

lemma dropLoop_stops_at_quote (a : List String) (bad : String)
    (rest : List String) (s : List DB)
    (ha : ∀ n ∈ a, hasQuote n = false) (hb : hasQuote bad = true) :
    dropLoop false (a ++ bad :: rest) s
      = (s.filter (fun db => !(a.contains db.name)),
         some (CleanErr.unsafeName bad)) := by
  induction a generalizing s with
  | nil => simp [dropLoop, hb]
  | cons n a2 ih =>
    have hn : hasQuote n = false := ha n (List.mem_cons_self n a2)
    rw [List.cons_append, dropLoop, hn]
    simp only [Bool.false_eq_true, if_false, Bool.false_and]
    rw [ih _ (fun m hm => ha m (List.mem_cons_of_mem n hm))]
    rw [contains_cons_pred]

/-- C8: a successful sweep drops exactly the databases whose server-level
comment is character-for-character the marker constant: the surviving server
state is the original one with precisely the marker-commented databases
removed; a database whose comment differs in any way, or that matches only
by name pattern, is untouched. -/
theorem clean_drops_exactly_marked (s : List DB)
    (hnodup : (s.map (fun db => db.name)).Nodup)
    (hsafe : ∀ n ∈ listOrphanNames s, hasQuote n = false) :
    cmd_clean_run false s
      = (s.filter (fun db => !(db.comment == some TUSKER_COMMENT)), none) := by
  have key : ∀ db ∈ s, ((listOrphanNames s).contains db.name)
      = (db.comment == some TUSKER_COMMENT) := by
    intro db hdb
    rw [← Bool.coe_iff_coe]
    constructor
    · intro hc
      have hmem : db.name ∈ listOrphanNames s := List.elem_iff.mp hc
      obtain ⟨db2, hdb2, hname⟩ := List.mem_map.mp hmem
      obtain ⟨hdb2s, hcm⟩ := List.mem_filter.mp hdb2
      have hdd : db2 = db := List.inj_on_of_nodup_map hnodup hdb2s hdb hname
      rw [← hdd]
      exact hcm
    · intro hcm
      exact List.elem_iff.mpr
        (List.mem_map.mpr ⟨db, List.mem_filter.mpr ⟨hdb, hcm⟩, rfl⟩)
  rw [cmd_clean_run, dropLoop_all_safe _ _ hsafe]
  congr 1
  apply List.filter_congr
  intro db hdb
  rw [key db hdb]

set_option maxRecDepth 32768 in
theorem clean_drops_exactly_marked_witness :
    cmd_clean_run false
        [⟨"tusker_1600000000_schema", some TUSKER_COMMENT⟩,
         ⟨"tusker_1600000000_migrations", some "CREATED BY TUSKER"⟩,
         ⟨"prod", none⟩]
      = ([⟨"tusker_1600000000_migrations", some "CREATED BY TUSKER"⟩,
          ⟨"prod", none⟩], none) := by
  rw [clean_drops_exactly_marked _ (by decide) (by decide)]
  decide

/-- C9: when the orphan list is some safe-named orphans followed by one whose
name contains a double quote, the sweep drops exactly the orphans before it,
raises the unsafe-name error, and leaves the quoted-name database and every
record after it untouched. -/
theorem clean_unsafe_name_fail_fast (s : List DB) (a : List String)
    (bad : String) (rest : List String)
    (hnodup : (s.map (fun db => db.name)).Nodup)
    (horph : listOrphanNames s = a ++ bad :: rest)
    (ha : ∀ n ∈ a, hasQuote n = false)
    (hb : hasQuote bad = true) :
    cmd_clean_run false s
      = (s.filter (fun db => !(a.contains db.name)),
         some (CleanErr.unsafeName bad)) ∧
    ∀ db ∈ s, (db.name = bad ∨ db.name ∈ rest) →
      db ∈ (cmd_clean_run false s).1 := by
  have hmain : cmd_clean_run false s
      = (s.filter (fun db => !(a.contains db.name)),
         some (CleanErr.unsafeName bad)) := by
    rw [cmd_clean_run, horph]
    exact dropLoop_stops_at_quote a bad rest s ha hb
  refine ⟨hmain, ?_⟩
  have hnd : (a ++ bad :: rest).Nodup := by
    rw [← horph]
    exact (List.Sublist.map (fun db => db.name)
      (List.filter_sublist s)).nodup hnodup
  obtain ⟨-, -, hdisj⟩ := List.nodup_append.mp hnd
  intro db hdb hm
  have hna : db.name ∉ a := by
    intro hin
    refine hdisj hin ?_
    rcases hm with h | h
    · rw [h]; exact List.mem_cons_self _ _
    · exact List.mem_cons_of_mem _ h
  have hcf : a.contains db.name = false :=
    Bool.eq_false_iff.mpr (fun hc => hna (List.elem_iff.mp hc))
  rw [hmain]
  exact List.mem_filter.mpr ⟨hdb, by simpa using hna⟩

set_option maxRecDepth 32768 in
theorem clean_unsafe_name_fail_fast_witness :
    cmd_clean_run false
        [⟨"tusker_1_schema", some TUSKER_COMMENT⟩,
         ⟨"bad\"db", some TUSKER_COMMENT⟩,
         ⟨"tusker_2_schema", some TUSKER_COMMENT⟩,
         ⟨"prod", none⟩]
      = ([⟨"bad\"db", some TUSKER_COMMENT⟩,
          ⟨"tusker_2_schema", some TUSKER_COMMENT⟩,
          ⟨"prod", none⟩], some (CleanErr.unsafeName "bad\"db")) := by
  rw [(clean_unsafe_name_fail_fast
    [⟨"tusker_1_schema", some TUSKER_COMMENT⟩,
     ⟨"bad\"db", some TUSKER_COMMENT⟩,
     ⟨"tusker_2_schema", some TUSKER_COMMENT⟩,
     ⟨"prod", none⟩]
    ["tusker_1_schema"] "bad\"db" ["tusker_2_schema"]
    (by decide) (by decide) (by decide) (by decide)).1]
  decide

lemma toNat_ofNat_valid (n : Nat) (h : n.isValidChar) :
    (Char.ofNat n).toNat = n := by
  unfold Char.ofNat
  rw [dif_pos h]
  simp [Char.ofNatAux, Char.toNat, UInt32.toNat]

lemma foldChar_ne_of_isUpper (c : Char) (h : c.isUpper = true) :
    foldChar c ≠ c := by
  have hb : 65 ≤ c.toNat ∧ c.toNat ≤ 90 := by
    simpa [Char.isUpper] using h
  have hval : (c.toNat + 32).isValidChar := Or.inl (by omega)
  intro heq
  have htn : (foldChar c).toNat = c.toNat := congrArg Char.toNat heq
  rw [foldChar, if_pos h, toNat_ofNat_valid _ hval] at htn
  omega

lemma pgFold_ne (s : String) (h : ∃ c ∈ s.data, c.isUpper = true) :
    pgFold s ≠ s := by
  obtain ⟨c, hc, hcu⟩ := h
  intro heq
  have hdata : s.data.map foldChar = s.data := congrArg String.data heq
  have hmap : s.data.map foldChar = s.data.map id := by
    rw [List.map_id]
    exact hdata
  have hfc : foldChar c = id c := List.map_inj_left.mp hmap c hc
  exact foldChar_ne_of_isUpper c hcu hfc

lemma exists_upper_of_lexes_not_valid (s : String)
    (hl : lexesAsIdent s = true) (hv : isValidUnquotedIdent s = false) :
    ∃ c ∈ s.data, c.isUpper = true := by
  unfold lexesAsIdent at hl
  unfold isValidUnquotedIdent at hv
  rcases hds : s.data with _ | ⟨c, cs⟩
  · rw [hds] at hl
    simp at hl
  · rw [hds] at hl hv
    simp only [Bool.and_eq_true, isIdentStartAny, isIdentTailAny,
      Char.isAlpha, Char.isAlphanum, Bool.or_eq_true, beq_iff_eq,
      List.all_eq_true] at hl
    obtain ⟨hl1, hl2⟩ := hl
    rcases Bool.and_eq_false_iff.mp hv with hv1 | hv2
    · refine ⟨c, List.mem_cons_self c cs, ?_⟩
      simp only [Bool.or_eq_false_iff, beq_eq_false_iff_ne] at hv1
      obtain ⟨hlow, hund⟩ := hv1
      rcases hl1 with (h | h) | h
      · exact h
      · exact absurd h (by simp [hlow])
      · exact absurd h hund
    · obtain ⟨d, hd, hdf⟩ := List.all_eq_false.mp hv2
      refine ⟨d, List.mem_cons_of_mem c hd, ?_⟩
      have hda := hl2 d hd
      simp only [Bool.or_eq_true, beq_iff_eq, not_or,
        Bool.not_eq_true] at hdf
      obtain ⟨⟨⟨hlow, hdig⟩, hund⟩, hdol⟩ := hdf
      rcases hda with (((h | h) | h) | h) | h
      · exact h
      · exact absurd h (by simp [hlow])
      · exact absurd h (by simp [hdig])
      · exact absurd h hund
      · exact absurd h hdol

/-- C10: `createdb` quotes the derived name inconsistently: CREATE DATABASE
and COMMENT ON DATABASE wrap it in double quotes while the teardown DROP
DATABASE interpolates it bare; so whenever the derived name is not a valid
unquoted identifier (it fails to lex as one token, or contains an uppercase
letter that unquoted parsing folds away), executing the teardown drop against
a server holding exactly the created database fails — it does not name the
created database. -/
theorem createdb_drop_quoting_mismatch (pfx : String) (now : Nat)
    (sfx : String)
    (hv : isValidUnquotedIdent (derivedName pfx now sfx) = false) :
    createdb_create_sql (derivedName pfx now sfx)
      = "CREATE DATABASE \"" ++ derivedName pfx now sfx ++ "\"" ∧
    createdb_comment_sql (derivedName pfx now sfx)
      = "COMMENT ON DATABASE \"" ++ derivedName pfx now sfx ++ "\" IS "
          ++ sq ++ TUSKER_COMMENT ++ sq ∧
    createdb_drop_sql (derivedName pfx now sfx)
      = "DROP DATABASE " ++ derivedName pfx now sfx ∧
    execDrop (dropTargetOfUnquoted (derivedName pfx now sfx))
        [derivedName pfx now sfx] = none := by
  refine ⟨rfl, rfl, rfl, ?_⟩
  unfold dropTargetOfUnquoted
  by_cases hl : lexesAsIdent (derivedName pfx now sfx) = true
  · rw [if_pos hl]
    have hne : pgFold (derivedName pfx now sfx) ≠ derivedName pfx now sfx :=
      pgFold_ne _ (exists_upper_of_lexes_not_valid _ hl hv)
    have hcon : ([derivedName pfx now sfx].contains
        (pgFold (derivedName pfx now sfx))) = false := by
      simp [List.contains_cons]
      exact hne
    simp only [execDrop, hcon, Bool.false_eq_true, if_false]
  · rw [if_neg hl]
    rfl

set_option maxRecDepth 32768 in
theorem createdb_drop_quoting_mismatch_witness :
    isValidUnquotedIdent (derivedName "Tusker" 0 "schema") = false ∧
    createdb_drop_sql (derivedName "Tusker" 0 "schema")
      = "DROP DATABASE " ++ derivedName "Tusker" 0 "schema" ∧
    execDrop (dropTargetOfUnquoted (derivedName "Tusker" 0 "schema"))
        [derivedName "Tusker" 0 "schema"] = none :=
  ⟨by decide,
   (createdb_drop_quoting_mismatch "Tusker" 0 "schema" (by decide)).2.2.1,
   (createdb_drop_quoting_mismatch "Tusker" 0 "schema" (by decide)).2.2.2⟩

end Tusker
